import Mathlib

/-!
Verification of the gobox guarded shared cell (`sharedref`, `atom`, `sharef`
packages) against its specification.

The Go code is embedded shallowly for a single thread of control:
* a `SharedRef[T]` value holds only pointers (`mutex`, `lockedByLocking`,
  `lockedBySwap`, `useCounter`, `value **T`), all shared by every copy, so a
  Handle copy is modelled by the very same `Cell` state;
* `nil` payload pointers become `Option`;
* the non-reentrant `sync.Mutex` becomes the boolean `lockHeld`: in a
  sequential execution a `TryLock` succeeds exactly when the current thread
  does not already hold the mutex, and a held mutex is never released by
  anybody else, so the spin loop either gives up or runs forever;
* the spin loop of `tryLock` gets explicit fuel, `none` standing for the
  non-terminating spin (the deadlock the spec documents);
* a caller-supplied handler is a state transformer `Cell T → Option (Cell T)`
  (it may mutate the payload through its `*T` argument and may re-enter the
  API on the same cell), `none` standing for a handler that never returns;
* contention handlers are abstracted to their only observable effect, the
  give-up decision as a function of the abstracted elapsed wait time
  (iteration count).
-/

namespace Sharedref

/-- State of one `SharedRef` cell: the targets of the five pointers every
copy of the Go struct shares (`value **T`, the two mode flags, the use
counter, and the mutex). -/
structure Cell (T : Type) where
  value : Option T
  lockedByLocking : Bool
  lockedBySwap : Bool
  useCounter : Int
  lockHeld : Bool
deriving Repr, DecidableEq

/-- Go `IsDead()`: `*this.value == nil`. -/
def isDead {T : Type} (c : Cell T) : Bool :=
  c.value.isNone

/-- Go `IsAlive()`: `*this.value != nil`. -/
def isAlive {T : Type} (c : Cell T) : Bool :=
  c.value.isSome

/-- Go `IsLocked()`: `*this.lockedByLocking || *this.lockedBySwap`. -/
def isLocked {T : Type} (c : Cell T) : Bool :=
  c.lockedByLocking || c.lockedBySwap

/-- The spin loop of `tryLock` once the first `TryLock` has failed: each
iteration sleeps, then invokes every contention handler with the elapsed
time and `giveUp`; if any handler called `giveUp` the loop returns `false`.
Sequentially the mutex stays held, so the loop never exits via `TryLock`;
`none` models the unbounded spin (fuel exhausted). -/
def spin (handlers : List (Nat → Bool)) : Nat → Nat → Option Bool
  | 0, _ => none
  | fuel + 1, iter =>
    if handlers.any (fun h => h iter) then some false
    else spin handlers fuel (iter + 1)

/-- Go `tryLock`: the first `mutex.TryLock()` succeeds iff the mutex is free;
otherwise the spin loop runs. -/
def tryLock (handlers : List (Nat → Bool)) (fuel : Nat) (lockHeld : Bool) :
    Option Bool :=
  if !lockHeld then some true else spin handlers fuel 1

/-- Go `Use(handler)`: rejected when dead or `*lockedBySwap`; otherwise the use
counter is incremented, the handler runs on the current value, the counter
is decremented, and `true` is returned. -/
def use {T : Type} (c : Cell T) (h : Cell T → Option (Cell T)) :
    Option (Cell T × Bool) :=
  if isDead c || c.lockedBySwap then some (c, false)
  else
    match h { c with useCounter := c.useCounter + 1 } with
    | none => none
    | some c' => some ({ c' with useCounter := c'.useCounter - 1 }, true)

/-- Go `Locking(handler)`: rejected when dead or `*lockedBySwap`; then
`tryLock`; on success `*lockedByLocking` is set, the handler runs, the flag
is cleared and the mutex released. -/
def locking {T : Type} (handlers : List (Nat → Bool)) (fuel : Nat)
    (c : Cell T) (h : Cell T → Option (Cell T)) : Option (Cell T × Bool) :=
  if isDead c || c.lockedBySwap then some (c, false)
  else
    match tryLock handlers fuel c.lockHeld with
    | none => none
    | some false => some (c, false)
    | some true =>
      match h { c with lockHeld := true, lockedByLocking := true } with
      | none => none
      | some c' =>
        some ({ c' with lockedByLocking := false, lockHeld := false }, true)

/-- Go `Swap(handler)`: rejected when dead, `*lockedByLocking`, or
`*useCounter > 0`; then `tryLock`; on success `*lockedBySwap` is set, the
handler runs on the current value, its result becomes the new stored value
(a `none` result kills the cell), the flag is cleared and the mutex
released. -/
def swap {T : Type} (handlers : List (Nat → Bool)) (fuel : Nat)
    (c : Cell T) (h : Cell T → Option (Cell T × Option T)) :
    Option (Cell T × Bool) :=
  if isDead c || c.lockedByLocking || decide (c.useCounter > 0) then
    some (c, false)
  else
    match tryLock handlers fuel c.lockHeld with
    | none => none
    | some false => some (c, false)
    | some true =>
      match h { c with lockHeld := true, lockedBySwap := true } with
      | none => none
      | some (c', newValue) =>
        some ({ c' with value := newValue, lockedBySwap := false,
                        lockHeld := false }, true)

/-- A quiescent live cell as produced by `New` for a non-pointer payload:
both flags clear, use counter zero, mutex free. -/
def mkCell {T : Type} (v : T) : Cell T :=
  { value := some v, lockedByLocking := false, lockedBySwap := false,
    useCounter := 0, lockHeld := false }

/-- The runtime shape classes `reflect.Kind` distinguishes that matter to
the payload guard. -/
inductive GoKind where
  | ptr
  | map
  | plain
deriving Repr, DecidableEq

/-- Go `New(value)` of package `sharedref`: builds a live cell, then
`if rvalue.Kind() == reflect.Ptr { *instance.value = nil }`. Only the
pointer kind is rejected. -/
def new {T : Type} (kind : GoKind) (v : T) : Cell T :=
  let instance_ := mkCell v
  if kind = GoKind.ptr then { instance_ with value := none } else instance_

end Sharedref

namespace Cleveref

/-- Go `Immutable[T]` of package `cleveref`: a single `*T` field, `nil`
meaning dead. -/
structure Immutable (T : Type) where
  value : Option T
deriving Repr, DecidableEq

/-- Go `NewImmutable(value)`: returns the dead instance when the payload's
reflected kind is `Ptr` or `Map`, the live one otherwise. -/
def NewImmutable {T : Type} (kind : Sharedref.GoKind) (v : T) :
    Immutable T :=
  let dead : Immutable T := { value := none }
  let alive : Immutable T := { value := some v }
  if kind = Sharedref.GoKind.ptr then dead
  else if kind = Sharedref.GoKind.map then dead
  else alive

/-- Go `Immutable.IsDead()`: `i.value == nil`. -/
def Immutable.isDead {T : Type} (i : Immutable T) : Bool :=
  i.value.isNone

end Cleveref

namespace Atom

/-!
Package `atom`, the variant with `mutex`, `lockedByUse`, `lockedBySwap`,
`value **T` and `Nest()`. Here the struct fields are pointers and `Nest`
replaces two of them by pointers to fresh objects, so aliasing matters: the
embedding uses an explicit heap of boolean cells (mutexes and flags) and of
`*T` slots (the targets of the `**T` field), and an `Atom` holds the four
locations. `mutex.Lock()` is the blocking call: sequentially it deadlocks
(`none`) when the current thread already holds that mutex.
-/

/-- Heap of allocated objects: boolean cells back the mutexes and the two
flags, slots back the `*T` pointers (`none` = nil). -/
structure Heap (T : Type) where
  bools : List Bool
  slots : List (Option T)
deriving Repr, DecidableEq

/-- An `Atom[T]` value: the four pointer fields as heap locations. -/
structure AtomRef where
  mutexLoc : Nat
  lockedByUseLoc : Nat
  lockedBySwapLoc : Nat
  valueLoc : Nat
deriving Repr, DecidableEq

def getBool {T : Type} (h : Heap T) (l : Nat) : Bool :=
  h.bools.getD l false

def setBool {T : Type} (h : Heap T) (l : Nat) (b : Bool) : Heap T :=
  { h with bools := h.bools.set l b }

def getSlot {T : Type} (h : Heap T) (l : Nat) : Option T :=
  (h.slots.getD l none)

def setSlot {T : Type} (h : Heap T) (l : Nat) (v : Option T) : Heap T :=
  { h with slots := h.slots.set l v }

/-- Go `New(value)`: allocates a fresh mutex, fresh `lockedByUse` and
`lockedBySwap` flags (all false) and a fresh value slot holding the
payload; `if rvalue.Kind() == reflect.Ptr { *instance.value = nil }`. -/
def new {T : Type} (h : Heap T) (kind : Sharedref.GoKind) (v : T) :
    Heap T × AtomRef :=
  let mutexLoc := h.bools.length
  let lockedByUseLoc := h.bools.length + 1
  let lockedBySwapLoc := h.bools.length + 2
  let valueLoc := h.slots.length
  let payload := if kind = Sharedref.GoKind.ptr then none else some v
  ({ bools := h.bools ++ [false, false, false],
     slots := h.slots ++ [payload] },
   { mutexLoc := mutexLoc, lockedByUseLoc := lockedByUseLoc,
     lockedBySwapLoc := lockedBySwapLoc, valueLoc := valueLoc })

/-- Go `Nest()`: the receiver is copied, its `lockedByUse` field is pointed at
a fresh `false` flag and its `mutex` field at a fresh mutex; `value` and
`lockedBySwap` keep pointing at the shared objects. -/
def nest {T : Type} (h : Heap T) (a : AtomRef) : Heap T × AtomRef :=
  let lockedByUseLoc := h.bools.length
  let mutexLoc := h.bools.length + 1
  ({ h with bools := h.bools ++ [false, false] },
   { a with lockedByUseLoc := lockedByUseLoc, mutexLoc := mutexLoc })

/-- Go `Atom.IsDead()`: `*this.value == nil`. -/
def atomIsDead {T : Type} (h : Heap T) (a : AtomRef) : Bool :=
  (getSlot h a.valueLoc).isNone

/-- Go `Atom.IsLocked()`: `*this.lockedByUse || *this.lockedBySwap`. -/
def atomIsLocked {T : Type} (h : Heap T) (a : AtomRef) : Bool :=
  getBool h a.lockedByUseLoc || getBool h a.lockedBySwapLoc

/-- Go `Atom.Use(handler)`: rejected when dead or `*lockedBySwap`; otherwise
`mutex.Lock()` (deadlock, `none`, if this thread already holds it), set
`*lockedByUse`, run the handler, clear the flag, unlock, return `true`.
The handler is a heap transformer: it may mutate the payload through its
`*T` argument and may call the API on other atoms. -/
def atomUse {T : Type} (h : Heap T) (a : AtomRef)
    (handler : Heap T → Option (Heap T)) : Option (Heap T × Bool) :=
  if atomIsDead h a || getBool h a.lockedBySwapLoc then some (h, false)
  else if getBool h a.mutexLoc then none
  else
    let h₁ := setBool (setBool h a.mutexLoc true) a.lockedByUseLoc true
    match handler h₁ with
    | none => none
    | some h₂ =>
      some (setBool (setBool h₂ a.lockedByUseLoc false) a.mutexLoc false,
            true)

/-- Go `Atom.Swap(handler)`: rejected when dead or `IsLocked()`; otherwise
`mutex.Lock()`, set `*lockedBySwap`, run the handler on the current value,
store its result (`none` kills the atom), clear the flag, unlock, return
`true`. -/
def atomSwap {T : Type} (h : Heap T) (a : AtomRef)
    (handler : Option T → Option T) : Option (Heap T × Bool) :=
  if atomIsDead h a || atomIsLocked h a then some (h, false)
  else if getBool h a.mutexLoc then none
  else
    let h₁ := setBool (setBool h a.mutexLoc true) a.lockedBySwapLoc true
    let newValue := handler (getSlot h₁ a.valueLoc)
    let h₂ := setSlot h₁ a.valueLoc newValue
    some (setBool (setBool h₂ a.lockedBySwapLoc false) a.mutexLoc false,
          true)

end Atom

namespace Sharef

/-!
Package `sharef`: a named cell attached to a `Group`, whose `Do` hands the
current value to the body and commits the body's reply, then notifies the
group's `OnReadWrite` callback. Sequentially the body is the function from
the value read on the portal's `Reader` to the value sent on its `Writer`,
and the callback's invocations are collected as an event trace in the
order they are delivered. -/

/-- Go `ReadWriteEvent[T]`: group name, sharef name, previous and current
value pointers (`none` = nil). -/
structure Event (T : Type) where
  groupName : String
  sharefName : String
  previous : Option T
  current : Option T
deriving Repr, DecidableEq

/-- A `Group[T]`: its name, and whether an `OnReadWrite` callback is
registered (`doReadWrite` only fires when one is). -/
structure Group where
  name : String
  hasCallback : Bool
deriving Repr, DecidableEq

/-- Go `Sharef.Do(body)` for a cell whose state is `s`, attached (or not) to a
group under a name: panics (`none`) when the stored pointer is nil;
otherwise reads `previous`, commits `current := body previous`, and — when
both group and name are set and a callback is registered — delivers the
event `{group.name, name, previous, current}` after the commit and before
returning. Returns the committed state and the delivered events in
order. -/
def sharefDo {T : Type} (group : Option Group) (name : Option String)
    (s : Option T) (body : Option T → Option T) :
    Option (Option T × List (Event T)) :=
  match s with
  | none => none
  | some v =>
    let previous : Option T := some v
    let current := body previous
    let events :=
      match group, name with
      | some g, some n =>
        if g.hasCallback then
          [{ groupName := g.name, sharefName := n, previous := previous,
             current := current }]
        else []
      | _, _ => []
    some (current, events)

/-- The incrementing body of the notification scenario: reads the integer
through the received pointer and writes a pointer to its successor. -/
def incBody : Option Int → Option Int
  | none => none
  | some v => some (v + 1)

/-- Runs `K` sequential `Do` calls with the incrementing body, accumulating the
delivered events in order; a panicking `Do` stops the sequence. -/
def doTimes (group : Option Group) (name : Option String) :
    Nat → Option Int → Option Int × List (Event Int)
  | 0, s => (s, [])
  | k + 1, s =>
    match sharefDo group name s incBody with
    | none => (s, [])
    | some (s', evs) =>
      let rest := doTimes group name k s'
      (rest.1, evs ++ rest.2)

end Sharef

namespace Sharedref

/-- A concrete dead cell, for witnesses. -/
def deadCellInt : Cell Int :=
  { value := none, lockedByLocking := false, lockedBySwap := false,
    useCounter := 0, lockHeld := false }

/-- C1: death is permanent and silencing — for every cell, once it is dead
(in particular once a `Swap` whose handler returned the nil sentinel has
completed), every subsequent `Use`, `Locking` and `Swap` call (through any
Handle copy, all of which share this very cell state) returns `false`,
leaves the cell unchanged, and never invokes the supplied function (the
result is the same for every handler). -/
theorem c1_dead_permanent_and_silencing {T : Type} (c : Cell T)
    (hd : isDead c = true) :
    (∀ h, use c h = some (c, false)) ∧
    (∀ handlers fuel h, locking handlers fuel c h = some (c, false)) ∧
    (∀ handlers fuel h, swap handlers fuel c h = some (c, false)) ∧
    (∀ (c₀ : Cell T) handlers fuel,
      isAlive c₀ = true → c₀.lockedByLocking = false →
      c₀.useCounter = 0 → c₀.lockHeld = false →
      ∃ c₁, swap handlers fuel c₀ (fun c' => some (c', none)) =
              some (c₁, true) ∧ isDead c₁ = true) := by
  refine ⟨?_, ?_, ?_, ?_⟩
  · intro h; simp [use, hd]
  · intro handlers fuel h; simp [locking, hd]
  · intro handlers fuel h; simp [swap, hd]
  · intro c₀ handlers fuel halive hlk hcnt hheld
    have hdead : isDead c₀ = false := by
      cases hv : c₀.value with
      | none => simp [isAlive, hv] at halive
      | some v => simp [isDead, hv]
    refine ⟨{ c₀ with value := none, lockedBySwap := false }, ?_, ?_⟩
    · simp [swap, hdead, hlk, hcnt, tryLock, hheld]
    · simp [isDead]

/-- C1 witness: a concrete dead cell silences a concrete `Use`. -/
theorem c1_witness :
    isDead deadCellInt = true ∧
    use deadCellInt (fun c => some c) = some (deadCellInt, false) :=
  ⟨by decide,
   (c1_dead_permanent_and_silencing deadCellInt (by decide)).1
     (fun c => some c)⟩

/-- Lift a pure `func(*T) *T` Swap handler, which reads the payload behind
its pointer argument and returns a fresh pointer, to the state-transformer
interface. -/
def liftPure {T : Type} (f : T → Option T) :
    Cell T → Option (Cell T × Option T) :=
  fun c =>
    match c.value with
    | some v => some (c, f v)
    | none => some (c, none)

/-- C4: Swap commit-or-kill — on a live, unlocked cell with use counter
zero, `Swap` invokes its handler on the current value, installs the
handler's result as the new stored value, and returns `true`; a `none`
result leaves the cell dead. -/
theorem c4_swap_commit_or_kill {T : Type} (c : Cell T) (v : T)
    (f : T → Option T) (handlers : List (Nat → Bool)) (fuel : Nat)
    (hv : c.value = some v) (hlk : c.lockedByLocking = false)
    (hsw : c.lockedBySwap = false) (hcnt : c.useCounter = 0)
    (hheld : c.lockHeld = false) :
    swap handlers fuel c (liftPure f) =
      some ({ c with value := f v }, true) ∧
    (f v = none → isDead { c with value := f v } = true) := by
  constructor
  · simp [swap, isDead, hv, hlk, hsw, hcnt, tryLock, hheld, liftPure]
  · intro hnone; simp [isDead, hnone]

/-- C4 witness: a killing swap on a concrete live cell commits `none` and
still returns `true`. -/
theorem c4_witness :
    swap [] 0 (mkCell (5 : Int)) (liftPure (fun _ => none)) =
      some ({ mkCell (5 : Int) with value := none }, true) :=
  (c4_swap_commit_or_kill (mkCell (5 : Int)) 5 (fun _ => none) [] 0
    rfl rfl rfl rfl rfl).1

/-- C5: Use contract — for any handler that returns, `Use` always returns a
boolean (no out-of-band failure); the boolean is `true` exactly when the
cell is not dead and not locked by `Swap`; in the rejected case the state
is untouched and the result is the same for every handler (so the handler
is never invoked), and in the accepted case the result is exactly the
handler run between the counter increment and decrement. -/
theorem c5_use_contract {T : Type} (c : Cell T)
    (h : Cell T → Option (Cell T)) (htot : ∀ x, (h x).isSome = true) :
    (use c h).isSome = true ∧
    ((isDead c || c.lockedBySwap) = true → use c h = some (c, false)) ∧
    (isDead c = false → c.lockedBySwap = false →
      use c h = (h { c with useCounter := c.useCounter + 1 }).map
        (fun c' => ({ c' with useCounter := c'.useCounter - 1 }, true))) ∧
    ((use c h).map Prod.snd = some true ↔
      (isDead c = false ∧ c.lockedBySwap = false)) := by
  cases hdead : isDead c with
  | true =>
    refine ⟨?_, ?_, ?_, ?_⟩
    · simp [use, hdead]
    · intro _; simp [use, hdead]
    · intro hcontra _; simp at hcontra
    · simp [use, hdead]
  | false =>
    cases hswp : c.lockedBySwap with
    | true =>
      refine ⟨?_, ?_, ?_, ?_⟩
      · simp [use, hdead, hswp]
      · intro _; simp [use, hdead, hswp]
      · intro _ hcontra; simp at hcontra
      · simp [use, hdead, hswp]
    | false =>
      obtain ⟨c', hc'⟩ := Option.isSome_iff_exists.mp
        (htot { c with useCounter := c.useCounter + 1 })
      simp only [hswp] at hc'
      refine ⟨?_, ?_, ?_, ?_⟩
      · simp [use, hdead, hswp, hc']
      · intro hcontra; simp [hdead, hswp] at hcontra
      · intro _ _; simp [use, hdead, hswp, hc']
      · simp [use, hdead, hswp, hc']

/-- C5 witness: the contract, instantiated on a concrete live cell with the
identity handler. -/
theorem c5_witness :
    (use (mkCell (0 : Int)) (fun x => some x)).isSome = true ∧
    ((use (mkCell (0 : Int)) (fun x => some x)).map Prod.snd = some true ↔
      (isDead (mkCell (0 : Int)) = false ∧
        (mkCell (0 : Int)).lockedBySwap = false)) :=
  ⟨(c5_use_contract (mkCell (0 : Int)) (fun x => some x)
      (fun _ => rfl)).1,
   (c5_use_contract (mkCell (0 : Int)) (fun x => some x)
      (fun _ => rfl)).2.2.2⟩

/-- C2: mode exclusion — starting from a fresh live cell holding `v`, each
rejected inner call returns `false` without invoking its function (the
result is the same for every inner handler `hU`/`hSw`/`hLin`), while the
outer call still runs and returns `true`. The inner boolean is committed
into the payload (directly by a `Swap`, through the pointer by a `Use`,
and through a nested `Use` by a `Locking`), so the final payload `0`
records that the inner call returned `false`. -/
theorem c2_mode_exclusion (v : Int)
    (handlers handlersInner : List (Nat → Bool)) (fuel fuelInner : Nat)
    (hU : Cell Int → Option (Cell Int))
    (hSw : Cell Int → Option (Cell Int × Option Int))
    (hLin : Cell Int → Option (Cell Int)) :
    (swap handlers fuel (mkCell v)
      (fun c =>
        match use c hU with
        | none => none
        | some (c', b) => some (c', some (if b then 1 else 0))) =
      some (mkCell 0, true)) ∧
    (use (mkCell v)
      (fun c =>
        match swap handlersInner fuelInner c hSw with
        | none => none
        | some (c', b) => some { c' with value := some (if b then 1 else 0) }) =
      some (mkCell 0, true)) ∧
    (locking handlers fuel (mkCell v)
      (fun c =>
        match swap handlersInner fuelInner c hSw with
        | none => none
        | some (c', b) =>
          (use c' (fun cu =>
            some { cu with value := some (if b then 1 else 0) })).map
            Prod.fst) =
      some (mkCell 0, true)) ∧
    (swap handlers fuel (mkCell v)
      (fun c =>
        match locking handlersInner fuelInner c hLin with
        | none => none
        | some (c', b) => some (c', some (if b then 1 else 0))) =
      some (mkCell 0, true)) := by
  refine ⟨?_, ?_, ?_, ?_⟩
  · simp [swap, use, tryLock, isDead, mkCell]
  · simp [use, swap, isDead, mkCell]
  · simp [locking, swap, use, tryLock, isDead, mkCell]
  · simp [swap, locking, tryLock, isDead, mkCell]

/-- C6: re-entrancy asymmetry of shared-use mode — a `Use` at a state with
any in-flight use count is accepted whenever the cell is live and not
swap-locked (first part, for every terminating handler `hU`); composing on
a fresh live cell, a `Use` nested inside a `Use` runs and both return
`true`, and a `Locking` nested inside a `Use` runs and both return `true`
(the inner call writes `7`, and a rejected inner call would have written
`-1`, so the final payload `7` records the accepted inner call). -/
theorem c6_use_reentrancy (v n : Int) (handlers : List (Nat → Bool))
    (fuel : Nat) (hU : Cell Int → Option (Cell Int))
    (htot : ∀ x, (hU x).isSome = true) :
    ((use { value := some v, lockedByLocking := false,
            lockedBySwap := false, useCounter := n,
            lockHeld := false } hU).map Prod.snd = some true) ∧
    (use (mkCell v)
      (fun c =>
        match use c (fun c' => some { c' with value := some 7 }) with
        | none => none
        | some (c', true) => some c'
        | some (c', false) => some { c' with value := some (-1) }) =
      some (mkCell 7, true)) ∧
    (use (mkCell v)
      (fun c =>
        match locking handlers fuel c
            (fun c' => some { c' with value := some 7 }) with
        | none => none
        | some (c', true) => some c'
        | some (c', false) => some { c' with value := some (-1) }) =
      some (mkCell 7, true)) := by
  refine ⟨?_, ?_, ?_⟩
  · obtain ⟨c', hc'⟩ := Option.isSome_iff_exists.mp
      (htot { value := some v, lockedByLocking := false,
              lockedBySwap := false, useCounter := n + 1,
              lockHeld := false })
    simp [use, isDead, hc']
  · simp [use, isDead, mkCell]
  · simp [use, locking, tryLock, isDead, mkCell]

/-- C6 witness: the first part at a concrete state with use count `2` and
the identity handler. -/
theorem c6_witness :
    (use { value := some (3 : Int), lockedByLocking := false,
           lockedBySwap := false, useCounter := 2,
           lockHeld := false } (fun x => some x)).map Prod.snd =
      some true :=
  (c6_use_reentrancy 3 2 [] 0 (fun x => some x) (fun _ => rfl)).1

/-- C7: contention give-up is effect-free — whenever the spin-wait ends
because a registered contention handler called `giveUp` (`spin … = some
false`), a `Locking` or `Swap` that had passed its fast-path checks but
found the mutex held returns `false` with the cell state exactly as it
was: the stored value is unchanged, neither mode flag has been set, and
the operation's own function was never invoked (the result is the same for
every handler). -/
theorem c7_giveup_effect_free {T : Type} (c : Cell T)
    (handlers : List (Nat → Bool)) (fuel : Nat)
    (hspin : spin handlers fuel 1 = some false)
    (hheld : c.lockHeld = true) :
    (isDead c = false → c.lockedBySwap = false →
      ∀ h, locking handlers fuel c h = some (c, false)) ∧
    (isDead c = false → c.lockedByLocking = false → c.useCounter ≤ 0 →
      ∀ h, swap handlers fuel c h = some (c, false)) := by
  constructor
  · intro hdead hswp h
    simp [locking, hdead, hswp, tryLock, hheld, hspin]
  · intro hdead hlk hcnt h
    have : ¬ c.useCounter > 0 := by omega
    simp [swap, hdead, hlk, this, tryLock, hheld, hspin]

/-- C7 witness: with one contention handler that always gives up, an inner
`Locking` (mutex held by an outer `Locking`) and an inner `Swap` (mutex
held by an outer `Swap`) both fail cleanly on concrete cells. -/
theorem c7_witness :
    locking [fun _ => true] 1
        ({ value := some (0 : Int), lockedByLocking := true,
           lockedBySwap := false, useCounter := 0, lockHeld := true })
        (fun x => some x) =
      some ({ value := some (0 : Int), lockedByLocking := true,
              lockedBySwap := false, useCounter := 0,
              lockHeld := true }, false) ∧
    swap [fun _ => true] 1
        ({ value := some (0 : Int), lockedByLocking := false,
           lockedBySwap := true, useCounter := 0, lockHeld := true })
        (fun x => some (x, some 1)) =
      some ({ value := some (0 : Int), lockedByLocking := false,
              lockedBySwap := true, useCounter := 0,
              lockHeld := true }, false) :=
  ⟨(c7_giveup_effect_free
      { value := some (0 : Int), lockedByLocking := true,
        lockedBySwap := false, useCounter := 0, lockHeld := true }
      [fun _ => true] 1 rfl rfl).1 rfl rfl (fun x => some x),
   (c7_giveup_effect_free
      { value := some (0 : Int), lockedByLocking := false,
        lockedBySwap := true, useCounter := 0, lockHeld := true }
      [fun _ => true] 1 rfl rfl).2 rfl rfl (by decide)
      (fun x => some (x, some 1))⟩

/-- A `Use` handler is well behaved when, whenever it returns, it has
restored the two mode flags, the use counter and the mutex to what it was
given: true of every handler composed from payload mutation through the
`*T` pointer and from nested API calls that return. -/
def PreservesCtl {T : Type} (h : Cell T → Option (Cell T)) : Prop :=
  ∀ c c', h c = some c' →
    c'.lockedByLocking = c.lockedByLocking ∧
    c'.lockedBySwap = c.lockedBySwap ∧
    c'.useCounter = c.useCounter ∧ c'.lockHeld = c.lockHeld

/-- The same for a `Swap` handler, about the cell-state part of its
result. -/
def PreservesCtlSwap {T : Type} (h : Cell T → Option (Cell T × Option T)) :
    Prop :=
  ∀ c c' nv, h c = some (c', nv) →
    c'.lockedByLocking = c.lockedByLocking ∧
    c'.lockedBySwap = c.lockedBySwap ∧
    c'.useCounter = c.useCounter ∧ c'.lockHeld = c.lockHeld

/-- C10: quiescence — starting from a cell with both mode flags clear and
the mutex free, every top-level `Use`, `Locking` or `Swap` that returns
(with a well-behaved handler) leaves `lockedByLocking = false`,
`lockedBySwap = false`, the use counter equal to its value before the
call, the mutex free, and hence `IsLocked() = false`, whether the call was
accepted or rejected. -/
theorem c10_quiescence {T : Type} (c : Cell T)
    (hlk : c.lockedByLocking = false) (hsw : c.lockedBySwap = false)
    (hheld : c.lockHeld = false) :
    (∀ h c' b, PreservesCtl h → use c h = some (c', b) →
      c'.lockedByLocking = false ∧ c'.lockedBySwap = false ∧
      c'.useCounter = c.useCounter ∧ c'.lockHeld = false ∧
      isLocked c' = false) ∧
    (∀ handlers fuel h c' b, PreservesCtl h →
      locking handlers fuel c h = some (c', b) →
      c'.lockedByLocking = false ∧ c'.lockedBySwap = false ∧
      c'.useCounter = c.useCounter ∧ c'.lockHeld = false ∧
      isLocked c' = false) ∧
    (∀ handlers fuel h c' b, PreservesCtlSwap h →
      swap handlers fuel c h = some (c', b) →
      c'.lockedByLocking = false ∧ c'.lockedBySwap = false ∧
      c'.useCounter = c.useCounter ∧ c'.lockHeld = false ∧
      isLocked c' = false) := by
  have htl : ∀ (handlers : List (Nat → Bool)) (fuel : Nat),
      tryLock handlers fuel c.lockHeld = some true := by
    intro handlers fuel; simp [tryLock, hheld]
  refine ⟨?_, ?_, ?_⟩
  · intro h c' b hpres hrun
    by_cases hdead : isDead c = true
    · have hcond : (isDead c || c.lockedBySwap) = true := by simp [hdead]
      simp [use, hcond] at hrun
      obtain ⟨h1, h2⟩ := hrun
      subst h1
      simp [isLocked, hlk, hsw, hheld]
    · have hcond : (isDead c || c.lockedBySwap) = false := by
        simp only [Bool.not_eq_true] at hdead
        simp [hdead, hsw]
      cases hh : h { c with useCounter := c.useCounter + 1 } with
      | none => simp [use, hcond, hh] at hrun
      | some c₂ =>
        obtain ⟨p1, p2, p3, p4⟩ := hpres _ _ hh
        simp [use, hcond, hh] at hrun
        obtain ⟨h1, h2⟩ := hrun
        subst h1
        simp only [Cell.lockedByLocking, Cell.lockedBySwap,
          Cell.useCounter, Cell.lockHeld] at p1 p2 p3 p4
        refine ⟨p1.trans hlk, p2.trans hsw, ?_, p4.trans hheld, ?_⟩
        · simp [p3]
        · simp [isLocked, p1.trans hlk, p2.trans hsw]
  · intro handlers fuel h c' b hpres hrun
    by_cases hdead : isDead c = true
    · have hcond : (isDead c || c.lockedBySwap) = true := by simp [hdead]
      simp [locking, hcond] at hrun
      obtain ⟨h1, h2⟩ := hrun
      subst h1
      simp [isLocked, hlk, hsw, hheld]
    · have hcond : (isDead c || c.lockedBySwap) = false := by
        simp only [Bool.not_eq_true] at hdead
        simp [hdead, hsw]
      cases hh : h { c with lockHeld := true, lockedByLocking := true } with
      | none => simp [locking, hcond, htl, hh] at hrun
      | some c₂ =>
        obtain ⟨p1, p2, p3, p4⟩ := hpres _ _ hh
        simp [locking, hcond, htl, hh] at hrun
        obtain ⟨h1, h2⟩ := hrun
        subst h1
        simp only [Cell.lockedByLocking, Cell.lockedBySwap,
          Cell.useCounter, Cell.lockHeld] at p1 p2 p3 p4
        exact ⟨rfl, p2.trans hsw, p3, rfl,
          by simp [isLocked, p2.trans hsw]⟩
  · intro handlers fuel h c' b hpres hrun
    by_cases hrej : (isDead c || c.lockedByLocking ||
        decide (c.useCounter > 0)) = true
    · simp [swap, hrej] at hrun
      obtain ⟨h1, h2⟩ := hrun
      subst h1
      simp [isLocked, hlk, hsw, hheld]
    · have hcond : (isDead c || c.lockedByLocking ||
          decide (c.useCounter > 0)) = false := by
        simp only [Bool.not_eq_true] at hrej
        exact hrej
      cases hh : h { c with lockHeld := true, lockedBySwap := true } with
      | none => simp [swap, hcond, htl, hh] at hrun
      | some p =>
        obtain ⟨c₂, nv⟩ := p
        obtain ⟨p1, p2, p3, p4⟩ := hpres _ _ _ hh
        simp [swap, hcond, htl, hh] at hrun
        obtain ⟨h1, h2⟩ := hrun
        subst h1
        simp only [Cell.lockedByLocking, Cell.lockedBySwap,
          Cell.useCounter, Cell.lockHeld] at p1 p2 p3 p4
        exact ⟨p1.trans hlk, rfl, p3, rfl,
          by simp [isLocked, p1.trans hlk]⟩

/-- C10 witness: the quiescence of a concrete accepted `Use` with a
payload-mutating handler. -/
theorem c10_witness :
    (mkCell (9 : Int)).lockedByLocking = false ∧
    ((use (mkCell (9 : Int))
        (fun c => some { c with value := some 10 })).map
      (fun p => isLocked p.1) = some false) := by
  refine ⟨rfl, ?_⟩
  have := (c10_quiescence (mkCell (9 : Int)) rfl rfl rfl).1
    (fun c => some { c with value := some 10 })
    { mkCell (9 : Int) with value := some 10 } true
    (fun c c' e => by cases e; exact ⟨rfl, rfl, rfl, rfl⟩)
    (by simp [use, mkCell, isDead])
  simp [use, mkCell, isDead]
  exact this.2.2.2.2

end Sharedref

/-- C3 counterexample: a map-kind payload does not produce a dead handle
from `sharedref.New` — its `reflect.Kind()` check compares against
`reflect.Ptr` only, so the returned handle is live. -/
theorem c3_counterexample :
    Sharedref.isDead (Sharedref.new Sharedref.GoKind.map (0 : Int)) =
      false := by
  decide

/-- C3 amended: only pointer-kind payloads are refused by `sharedref.New`
(the handle is dead, `IsDead() = true`, `IsAlive() = false`, with no
error); a map-kind payload yields a live handle from `sharedref.New`;
map-kind payloads are refused — also silently — only by `cleveref`'s
`NewImmutable`, which rejects both pointer and map kinds. -/
theorem c3_payload_guard_amended :
    (∀ (T : Type) (v : T),
      Sharedref.isDead (Sharedref.new Sharedref.GoKind.ptr v) = true ∧
      Sharedref.isAlive (Sharedref.new Sharedref.GoKind.ptr v) = false) ∧
    (∀ (T : Type) (v : T),
      Sharedref.isDead (Sharedref.new Sharedref.GoKind.map v) = false ∧
      Sharedref.isAlive (Sharedref.new Sharedref.GoKind.map v) = true) ∧
    (∀ (T : Type) (v : T),
      (Cleveref.NewImmutable Sharedref.GoKind.ptr v).isDead = true ∧
      (Cleveref.NewImmutable Sharedref.GoKind.map v).isDead = true) := by
  refine ⟨?_, ?_, ?_⟩
  · intro T v
    constructor
    · simp [Sharedref.new, Sharedref.isDead, Sharedref.mkCell]
    · simp [Sharedref.new, Sharedref.isAlive, Sharedref.mkCell]
  · intro T v
    constructor
    · simp [Sharedref.new, Sharedref.isDead, Sharedref.mkCell]
    · simp [Sharedref.new, Sharedref.isAlive, Sharedref.mkCell]
  · intro T v
    constructor
    · simp [Cleveref.NewImmutable, Cleveref.Immutable.isDead]
    · simp [Cleveref.NewImmutable, Cleveref.Immutable.isDead]

namespace Atom

/-- The C8 scenario: `New` an atom on the empty heap, then `Nest` it.
Returns the resulting heap, the original handle and the nested handle. -/
def c8Setup (v : Int) : Heap Int × AtomRef × AtomRef :=
  let p := new ({ bools := [], slots := [] } : Heap Int)
    Sharedref.GoKind.plain v
  let q := nest p.1 p.2
  (q.1, p.2, q.2)

end Atom

namespace Atom

/-- The heap of the C8 scenario while a `Use` through the original handle
is in flight: the original's mutex is held and its `lockedByUse` flag is
set. -/
def c8LockedHeap (v : Int) : Heap Int :=
  setBool (setBool (c8Setup v).1 (c8Setup v).2.1.mutexLoc true)
    (c8Setup v).2.1.lockedByUseLoc true

/-- C8: `Nest` forks the lock domain only — the nested handle keeps the
very same value slot and `lockedBySwap` flag as the original but points at
a fresh mutex and a fresh `lockedByUse` flag; a replacement or a kill
through the nested handle is visible through the original; and while the
original's `Use` holds its mutex, the nested handle's exclusive `Use`
still runs and returns `true`, whereas the same call through the original
handle blocks forever on the held mutex. -/
theorem c8_nest_lock_domain_fork (v w : Int) :
    ((c8Setup v).2.2.valueLoc = (c8Setup v).2.1.valueLoc ∧
      (c8Setup v).2.2.lockedBySwapLoc = (c8Setup v).2.1.lockedBySwapLoc) ∧
    ((c8Setup v).2.2.mutexLoc ≠ (c8Setup v).2.1.mutexLoc ∧
      (c8Setup v).2.2.lockedByUseLoc ≠ (c8Setup v).2.1.lockedByUseLoc) ∧
    (∃ h', atomSwap (c8Setup v).1 (c8Setup v).2.2 (fun _ => some w) =
        some (h', true) ∧
      getSlot h' (c8Setup v).2.1.valueLoc = some w ∧
      atomIsDead h' (c8Setup v).2.1 = false) ∧
    (∃ h', atomSwap (c8Setup v).1 (c8Setup v).2.2 (fun _ => none) =
        some (h', true) ∧
      atomIsDead h' (c8Setup v).2.1 = true ∧
      atomIsDead h' (c8Setup v).2.2 = true) ∧
    (atomUse (c8LockedHeap v) (c8Setup v).2.2 (fun x => some x) =
      some (c8LockedHeap v, true)) ∧
    (atomUse (c8LockedHeap v) (c8Setup v).2.1 (fun x => some x) = none) := by
  refine ⟨⟨rfl, rfl⟩, ⟨by simp [c8Setup, new, nest],
    by simp [c8Setup, new, nest]⟩, ?_, ?_, ?_, ?_⟩
  · refine ⟨_, rfl, ?_, ?_⟩
    · simp [c8Setup, new, nest, atomSwap, getSlot, setSlot, getBool,
        setBool, atomIsDead, atomIsLocked]
    · simp [c8Setup, new, nest, atomSwap, getSlot, setSlot, getBool,
        setBool, atomIsDead, atomIsLocked]
  · refine ⟨_, rfl, ?_, ?_⟩
    · simp [c8Setup, new, nest, atomSwap, getSlot, setSlot, getBool,
        setBool, atomIsDead, atomIsLocked]
    · simp [c8Setup, new, nest, atomSwap, getSlot, setSlot, getBool,
        setBool, atomIsDead, atomIsLocked]
  · simp [c8Setup, c8LockedHeap, new, nest, atomUse, getSlot, setSlot,
      getBool, setBool, atomIsDead, atomIsLocked]
  · simp [c8Setup, c8LockedHeap, new, nest, atomUse, getSlot, setSlot,
      getBool, setBool, atomIsDead, atomIsLocked]

end Atom

namespace Sharef

/-- Trace of `k` sequential incrementing `Do` calls on a group-created cell
with a registered callback, starting from any integer `n`: the cell ends at
`n + k` and the delivered events are exactly
`(n, n+1), (n+1, n+2), …, (n+k-1, n+k)` in order, each carrying the group
and cell names. -/
theorem doTimes_trace (g : Group) (nm : String) (hg : g.hasCallback = true)
    (k : Nat) : ∀ n : Int,
    doTimes (some g) (some nm) k (some n) =
      (some (n + k),
       (List.range k).map (fun i =>
         { groupName := g.name, sharefName := nm,
           previous := some (n + i), current := some (n + i + 1) })) := by
  induction k with
  | zero => intro n; simp [doTimes]
  | succ k ih =>
    intro n
    have hdo : sharefDo (some g) (some nm) (some n) incBody =
        some (some (n + 1),
          [{ groupName := g.name, sharefName := nm, previous := some n,
             current := some (n + 1) }]) := by
      simp [sharefDo, incBody, hg]
    simp only [doTimes, hdo, ih (n + 1)]
    refine Prod.ext ?_ ?_
    · simp only []
      congr 1
      push_cast
      ring
    · simp only [List.singleton_append, List.range_succ_eq_map,
        List.map_cons, List.map_map]
      congr 1
      · simp
      · refine List.map_congr_left ?_
        intro i _
        simp only [Function.comp_apply, Event.mk.injEq,
          Option.some.injEq]
        refine ⟨trivial, trivial, ?_, ?_⟩ <;> (push_cast; ring)

/-- C9: group notification sequence — for a group-created cell with an
`OnReadWrite` callback registered, `K` sequential replace operations each
incrementing an integer payload starting from `0` deliver to the callback
exactly the pairs `(0,1), (1,2), …, (K-1,K)` in that order, each carrying
the group name and the cell name. In the embedding each event is emitted
by `sharefDo` from the already-committed value, before the call returns,
matching `*this.state = current` preceding `doReadWrite` in the source. -/
theorem c9_group_notification (K : Nat) (gname cname : String) :
    doTimes (some { name := gname, hasCallback := true }) (some cname) K
        (some 0) =
      (some (K : Int),
       (List.range K).map (fun i =>
         { groupName := gname, sharefName := cname,
           previous := some (i : Int), current := some ((i : Int) + 1) })) := by
  have h := doTimes_trace { name := gname, hasCallback := true } cname rfl K 0
  simpa using h

end Sharef
